import Mathlib

/-!
# MoodLens scoring and fusion engine: a shallow embedding

This file embeds the decision core of the MoodLens repository in Lean 4 and
proves properties of it.  The embedded code comes from two Python sources:

* `src/core/emotion_detector.py` (`UnifiedEmotionDetector`): structured-answer
  scoring, keyword journaling scoring, modality score normalisation, simple
  weighted fusion, confidence estimation and indicator extraction.
* `src/utils/advanced_fusion_system.py` (`AdvancedEmotionFusionSystem`):
  quality-adjusted weighted fusion over whole-pipeline modality outputs.

Modelling conventions:

* Python floats are embedded as `ℚ` (all constants in the sources are decimal
  literals, and the claims under study are exact arithmetic statements).
* A Python dict with the eight fixed emotion keys is embedded as a total
  function `Emotion → ℚ`; its fixed insertion order is `emotionOrder`.
  The empty dict `{}` read through `.get(e, 0)` denotes the zero function.
* A Python dict with free string keys is embedded as an association list
  `List (String × ℚ)` (insertion order preserved, keys unique) with `alookup`
  playing the role of `d.get(k)` / `k in d`.
* Python's `max(xs)` over a nonempty iterable of numbers is `pyMax`; its
  `max(items, key=value)` — which keeps the *first* maximal item — is
  `pyMaxPair`.
* The iteration order of the Python `set` built in `weighted_fusion`
  (`all_categories`) is unspecified; it is passed explicitly as the
  `catOrder` argument of `weightedFusion`.
* Python `str.lower` on the ASCII texts involved is `lowerStr`; substring
  tests (`kw in text`) are `occursIn`; `str.strip()` is `pyStrip`.
-/

/-- The eight emotion categories of `UnifiedEmotionDetector.emotions`
(the Category Registry). -/
inductive Emotion
  | anxious
  | sad
  | frustrated
  | overwhelmed
  | calm
  | happy
  | neutral
  | tired
deriving DecidableEq, Fintype, Repr

/-- Insertion order of the `self.emotions` dict — the Category Registry order. -/
def emotionOrder : List Emotion :=
  [.anxious, .sad, .frustrated, .overwhelmed, .calm, .happy, .neutral, .tired]

/-- The string key of each category, as used in the Python dicts. -/
def emotionKey : Emotion → String
  | .anxious => "anxious"
  | .sad => "sad"
  | .frustrated => "frustrated"
  | .overwhelmed => "overwhelmed"
  | .calm => "calm"
  | .happy => "happy"
  | .neutral => "neutral"
  | .tired => "tired"

/-- The apostrophe character (several configured keywords contain one). -/
def apoChar : Char := Char.ofNat 39

/-- The apostrophe as a one-character string. -/
def apo : String := String.mk [apoChar]

/-- Association-list lookup, the embedding of Python dict access
(`d.get(k)` and `k in d`).  Dicts have unique keys, so first match is
the match. -/
def alookup {α β : Type} [DecidableEq α] (k : α) : List (α × β) → Option β
  | [] => none
  | p :: t => if p.1 = k then some p.2 else alookup k t

/-- `Python max(xs)` over a list of rationals (0 for the empty list, which the
embedded code never reaches). -/
def pyMax : List ℚ → ℚ
  | [] => 0
  | x :: xs => xs.foldl max x

/-- One step of Python's `max(items, key=lambda x: x[1])`: the running best is
replaced only when the new value is strictly greater, so the first maximal
item wins. -/
def pickMax {α : Type} (best p : α × ℚ) : α × ℚ :=
  if best.2 < p.2 then p else best

/-- Python's `max(items, key=lambda x: x[1])` over an association list:
returns the first item with maximal value.  `dflt` is only used for the
empty list (in `weighted_fusion` the source supplies `("calm", 0.5)` there). -/
def pyMaxPair {α : Type} (dflt : α × ℚ) : List (α × ℚ) → α × ℚ
  | [] => dflt
  | x :: xs => xs.foldl pickMax x

/-- ASCII lowercasing of one character (`str.lower()` acts like this on the
ASCII texts involved). -/
def lowerCh (c : Char) : Char :=
  if 'A' ≤ c ∧ c ≤ 'Z' then Char.ofNat (c.toNat + 32) else c

/-- ASCII lowercasing, the embedding of `str.lower()` on the ASCII texts
involved. -/
def lowerStr (s : String) : String := String.mk (s.toList.map lowerCh)

/-- The whitespace characters stripped by Python `str.strip()`. -/
def pyIsSpace (c : Char) : Bool :=
  c = ' ' || c = '\t' || c = '\n' || c = '\r' || c = '\x0b' || c = '\x0c'

/-- Python `str.strip()`, as a character list. -/
def pyStrip (s : String) : List Char :=
  ((s.toList.dropWhile pyIsSpace).reverse.dropWhile pyIsSpace).reverse

/-- `needle.isPrefixOf haystack` on character lists, written out so that all
string matching in the embedding is by plain structural recursion. -/
def prefMatch : List Char → List Char → Bool
  | [], _ => true
  | _ :: _, [] => false
  | a :: as, b :: bs => a = b && prefMatch as bs

/-- Contiguous-substring test on character lists: Python's `needle in text`. -/
def subMatch : List Char → List Char → Bool
  | n, [] => n.isEmpty
  | n, h :: t => prefMatch n (h :: t) || subMatch n t

/-- Python's `kw in text` for strings. -/
def occursIn (kw text : String) : Bool := subMatch kw.toList text.toList

/-- `max(scores.values())` over the eight-key score dict, whose values
iterate in registry order. -/
def maxVal (f : Emotion → ℚ) : ℚ := pyMax (emotionOrder.map f)

/-- The shared normalisation step of `_score_initial_responses`,
`_score_journaling_responses`, `_score_face` and `_score_voice`:

    max_score = max(scores.values()) if max(scores.values()) > 0 else 1
    for emotion in scores: scores[emotion] = scores[emotion] / max_score
-/
def normalizeScores (f : Emotion → ℚ) : Emotion → ℚ :=
  fun e => f e / (if 0 < maxVal f then maxVal f else 1)

/-- `UnifiedEmotionDetector.question_weights`: the static nested dict mapping
a question id to a dict from answer value to a partial score map. -/
def questionWeightsTable : List (String × List (String × List (Emotion × ℚ))) :=
  [("energy_level",
    [("high", [(.happy, 8/10), (.anxious, 3/10), (.frustrated, 2/10)]),
     ("moderate", [(.calm, 7/10), (.neutral, 3/10)]),
     ("low", [(.sad, 7/10), (.tired, 8/10), (.overwhelmed, 3/10), (.neutral, 2/10)])]),
   ("thoughts",
    [("racing", [(.anxious, 8/10), (.overwhelmed, 9/10), (.frustrated, 3/10)]),
     ("flowing", [(.calm, 9/10), (.happy, 5/10)]),
     ("stuck", [(.overwhelmed, 9/10), (.sad, 6/10), (.neutral, 2/10)])]),
   ("physical",
    [("tense", [(.anxious, 8/10), (.frustrated, 7/10), (.overwhelmed, 6/10)]),
     ("neutral", [(.calm, 6/10), (.neutral, 5/10)]),
     ("relaxed", [(.calm, 9/10), (.happy, 4/10)])]),
   ("worry",
    [("nothing", [(.calm, 8/10), (.happy, 5/10), (.neutral, 2/10)]),
     ("few_things", [(.anxious, 5/10), (.overwhelmed, 4/10)]),
     ("a_lot", [(.anxious, 8/10), (.overwhelmed, 9/10)])]),
   ("feeling_like",
    [("crying", [(.sad, 9/10), (.overwhelmed, 6/10)]),
     ("screaming", [(.frustrated, 9/10), (.overwhelmed, 4/10), (.anxious, 3/10)]),
     ("laughing", [(.happy, 9/10), (.calm, 5/10)]),
     ("nothing", [(.neutral, 7/10), (.overwhelmed, 4/10), (.calm, 2/10), (.sad, 2/10), (.tired, 2/10)])]),
   ("mood_comparison",
    [("better", [(.happy, 8/10), (.calm, 4/10)]),
     ("same", [(.neutral, 5/10), (.calm, 4/10)]),
     ("worse", [(.sad, 7/10), (.anxious, 5/10), (.overwhelmed, 4/10), (.tired, 3/10)])]),
   ("need_most",
    [("company", [(.sad, 6/10), (.anxious, 3/10)]),
     ("rest", [(.tired, 9/10), (.overwhelmed, 5/10), (.calm, 3/10)]),
     ("focus", [(.anxious, 5/10), (.overwhelmed, 6/10)]),
     ("action", [(.frustrated, 8/10), (.overwhelmed, 3/10), (.anxious, 3/10)])])]

/-- The partial score map of a (question id, answer value) pair.  Unmatched
pairs give the empty map (the `if question in ... and answer in ...` guard
of `_score_initial_responses`). -/
def questionWeights (q a : String) : List (Emotion × ℚ) :=
  match alookup q questionWeightsTable with
  | some answers =>
    match alookup a answers with
    | some weights => weights
    | none => []
  | none => []

/-- The weight a (question, answer) pair adds to category `e`
(0 when the pair or the category is absent from the table). -/
def weightFor (q a : String) (e : Emotion) : ℚ :=
  (alookup e (questionWeights q a)).getD 0

/-- Accumulation loop of `_score_initial_responses` (before normalisation),
viewed per category. -/
def scoreInitialRaw (responses : List (String × String)) (e : Emotion) : ℚ :=
  responses.foldl (fun acc qa => acc + weightFor qa.1 qa.2 e) 0

/-- `UnifiedEmotionDetector._score_initial_responses`. -/
def scoreInitialResponses (responses : List (String × String)) : Emotion → ℚ :=
  normalizeScores (scoreInitialRaw responses)

/-- `emotion_keywords` of `_score_journaling_responses`.  Note that the
`calm` list of the source contains the keyword `"peaceful"` twice. -/
def emotionKeywords : Emotion → List String
  | .anxious =>
    ["worried", "anxious", "nervous", "stressed", "panic", "fear", "scared",
     "racing thoughts", "can" ++ apo ++ "t stop thinking", "overwhelming", "tense",
     "heart racing", "sweating", "shaking", "restless"]
  | .sad =>
    ["sad", "depressed", "down", "hopeless", "empty", "lonely", "crying",
     "tears", "grief", "loss", "disappointed", "hurt", "broken", "heavy",
     "can" ++ apo ++ "t get out of bed", "no energy", "worthless"]
  | .frustrated =>
    ["frustrated", "angry", "mad", "irritated", "annoyed", "furious",
     "rage", "explosive", "can" ++ apo ++ "t take it", "fed up", "sick of",
     "want to scream", "punch something", "so angry"]
  | .overwhelmed =>
    ["overwhelmed", "too much", "can" ++ apo ++ "t cope", "drowning", "stuck",
     "paralyzed", "frozen", "don" ++ apo ++ "t know where to start", "everything at once",
     "too many things", "can" ++ apo ++ "t handle", "breaking down"]
  | .calm =>
    ["calm", "peaceful", "relaxed", "centered", "balanced", "serene",
     "content", "at ease", "comfortable", "breathing easy", "quiet mind",
     "peaceful", "tranquil", "grounded"]
  | .happy =>
    ["happy", "joyful", "excited", "energized", "positive", "optimistic",
     "grateful", "blessed", "lucky", "amazing", "wonderful", "fantastic",
     "smiling", "laughing", "celebrating"]
  | .neutral =>
    ["okay", "fine", "neutral", "nothing", "empty", "numb", "flat",
     "don" ++ apo ++ "t feel anything", "meh", "whatever", "indifferent", "bored"]
  | .tired =>
    ["tired", "exhausted", "drained", "fatigued", "worn out", "burned out",
     "no energy", "can" ++ apo ++ "t keep going", "need rest", "sleepy", "lethargic",
     "running on empty", "depleted"]

/-- Accumulation loop of `_score_journaling_responses` (before
normalisation), viewed per category: for each non-blank response, each
configured keyword occurring in the lowercased text adds `1.0`. -/
def scoreJournalingRaw (responses : List (String × String)) (e : Emotion) : ℚ :=
  responses.foldl
    (fun acc p =>
      if p.2.toList.isEmpty || (pyStrip p.2).isEmpty then acc
      else acc + ((emotionKeywords e).countP fun kw => occursIn kw (lowerStr p.2) : ℕ))
    0

/-- `UnifiedEmotionDetector._score_journaling_responses` (the
`if not responses: return scores` early exit returns the all-zero map
before the normalisation step). -/
def scoreJournalingResponses (responses : List (String × String)) : Emotion → ℚ :=
  if responses.isEmpty then fun _ => 0
  else normalizeScores (scoreJournalingRaw responses)

/-- The face/voice cluster-to-category mapping (`mapping` in `_score_face`;
`_score_voice` repeats the identical table). -/
def clusterMapping : List (String × Emotion) :=
  [("stressed", .anxious), ("anxious", .anxious), ("frustrated", .frustrated),
   ("sad", .sad), ("overwhelmed", .overwhelmed), ("positive", .happy),
   ("calm", .calm), ("energized", .happy)]

/-- Accumulation loop of `_score_face`/`_score_voice`: every mapped modality
tag adds its score onto the mapped canonical category; unmapped tags are
dropped. -/
def scoreClusterRaw (clusterScores : List (String × ℚ)) (e : Emotion) : ℚ :=
  clusterScores.foldl
    (fun acc p =>
      match alookup p.1 clusterMapping with
      | some m => if m = e then acc + p.2 else acc
      | none => acc)
    0

/-- The face/voice data dict as consumed by `detect_emotion`:
`cluster_scores` (used for scoring) and `actionable_category`
(used by `_get_indicators`). -/
structure FaceVoiceData where
  clusterScores : Option (List (String × ℚ))
  actionableCategory : Option String
deriving DecidableEq

/-- `UnifiedEmotionDetector._score_face` (the all-zero map when
`cluster_scores` is absent). -/
def scoreFace (d : FaceVoiceData) : Emotion → ℚ :=
  match d.clusterScores with
  | none => fun _ => 0
  | some cs => normalizeScores (scoreClusterRaw cs)

/-- `UnifiedEmotionDetector._score_voice`: the source repeats the body of
`_score_face` verbatim (same mapping table, same normalisation). -/
def scoreVoice (d : FaceVoiceData) : Emotion → ℚ :=
  match d.clusterScores with
  | none => fun _ => 0
  | some cs => normalizeScores (scoreClusterRaw cs)

/-- `UnifiedEmotionDetector._combine_scores`: fixed-weight sum
0.3/0.4/0.2/0.1 with no renormalisation.  Each argument is the score dict of
one source read through `.get(emotion, 0)`; an absent source is the empty
dict, i.e. the zero function. -/
def combineScores (initial journaling face voice : Emotion → ℚ) : Emotion → ℚ :=
  fun e => initial e * (3/10) + journaling e * (4/10) + face e * (2/10) + voice e * (1/10)

/-- `sorted(scores.items(), key=lambda x: x[1], reverse=True)`, projected to
the list of values (only `sorted_scores[1][1]` is ever read, and the value at
a fixed index of a stable descending sort of pairs equals the value at that
index of the descending sort of the values). -/
def sortedValsDesc (f : Emotion → ℚ) : List ℚ :=
  List.insertionSort (fun a b => b ≤ a) (emotionOrder.map f)

/-- The tiered margin boost of `_calculate_confidence`. -/
def boostedConf (score separation : ℚ) : ℚ :=
  if 3/10 < separation then score + 35/100
  else if 15/100 < separation then score + separation * (5/10)
  else score + separation * (2/10)

/-- The score-strength adjustment of `_calculate_confidence`: weak-signal
penalty below 0.3, strong-signal bonus above 0.6. -/
def strengthAdjust (score conf : ℚ) : ℚ :=
  if score < 3/10 then conf * (7/10)
  else if 6/10 < score then min (conf + 15/100) 1
  else conf

/-- `UnifiedEmotionDetector._calculate_confidence` (`score` is the dominant
pair's value).  The `2 ≤ length` guard is the source's
`if len(sorted_scores) >= 2`. -/
def calculateConfidence (f : Emotion → ℚ) (score : ℚ) : ℚ :=
  let vals := sortedValsDesc f
  min
    (strengthAdjust score
      (if 2 ≤ vals.length then boostedConf score (score - vals.getD 1 0) else score))
    1

/-- Keyword families checked by the journaling branch of `_get_indicators`. -/
def indicatorWords : Emotion → List String
  | .anxious => ["worried", "nervous", "stressed", "panic"]
  | .sad => ["sad", "down", "hopeless", "empty"]
  | .frustrated => ["angry", "mad", "frustrated", "irritated"]
  | .overwhelmed => ["overwhelmed", "too much", "can" ++ apo ++ "t cope"]
  | _ => []

/-- The journaling loop of `_get_indicators`: the first substantial response
(nonempty, stripped length > 10) is inspected for the winning category's
keyword family, and the loop breaks there whether or not a phrase matched. -/
def journalIndicator : List (String × String) → Emotion → List String
  | [], _ => []
  | p :: rest, e =>
    if ¬p.2.toList.isEmpty ∧ 10 < (pyStrip p.2).length then
      if (e = .anxious ∨ e = .sad ∨ e = .frustrated ∨ e = .overwhelmed)
          ∧ (indicatorWords e).any (fun w => occursIn w (lowerStr p.2)) then
        match e with
        | .anxious => ["Your writing shows signs of worry"]
        | .sad => ["Your writing reflects sadness"]
        | .frustrated => ["Your writing shows frustration"]
        | .overwhelmed => ["Your writing indicates feeling overwhelmed"]
        | _ => []
      else []
    else journalIndicator rest e

/-- `face_data and face_data.get('actionable_category') == emotion`. -/
def matchesActionable : Option FaceVoiceData → Emotion → Bool
  | none, _ => false
  | some d, e => d.actionableCategory == some (emotionKey e)

/-- `UnifiedEmotionDetector._get_indicators`: the fixed cascade of evidence
checks, truncated to the first three hits. -/
def getIndicators (initial journaling : List (String × String))
    (faceData voiceData : Option FaceVoiceData) (emotion : Emotion) : List String :=
  ((if alookup "thoughts" initial = some "racing" ∧ (emotion = .anxious ∨ emotion = .overwhelmed)
      then ["Your thoughts are racing"] else []) ++
   (if alookup "energy_level" initial = some "low" ∧ (emotion = .sad ∨ emotion = .tired)
      then ["Your energy feels low"] else []) ++
   (if alookup "physical" initial = some "tense" ∧ (emotion = .anxious ∨ emotion = .frustrated)
      then ["You feel physically tense"] else []) ++
   (if alookup "feeling_like" initial = some "crying" ∧ emotion = .sad
      then ["You feel like crying"] else []) ++
   (if alookup "feeling_like" initial = some "screaming" ∧ emotion = .frustrated
      then ["You feel like screaming"] else []) ++
   (if alookup "feeling_like" initial = some "laughing" ∧ emotion = .happy
      then ["You feel like laughing"] else []) ++
   journalIndicator journaling emotion ++
   (if matchesActionable faceData emotion then ["Your facial expression shows this emotion"] else []) ++
   (if matchesActionable voiceData emotion then ["Your voice tone indicates this emotion"] else [])).take 3

/-- The fields of the `detect_emotion` result dict that the engine computes
(display metadata and the static action lists are content lookups on the
winning key and are out of the modelled core). -/
structure DetectionResult where
  emotion : Emotion
  confidence : ℚ
  indicators : List String
  allScores : Emotion → ℚ

/-- `UnifiedEmotionDetector.detect_emotion`.  Absent `face_data`/`voice_data`
make the corresponding score dict the empty dict (zero under `.get(e, 0)`).
The dominant pair is `max(final_scores.items(), key=lambda x: x[1])`. -/
def detectEmotion (initialResponses journalingResponses : List (String × String))
    (faceData voiceData : Option FaceVoiceData) : DetectionResult :=
  let initialScores := scoreInitialResponses initialResponses
  let journalingScores := scoreJournalingResponses journalingResponses
  let faceScores := match faceData with | some d => scoreFace d | none => fun _ => 0
  let voiceScores := match voiceData with | some d => scoreVoice d | none => fun _ => 0
  let finalScores := combineScores initialScores journalingScores faceScores voiceScores
  let dominant := pyMaxPair (Emotion.anxious, 0) (emotionOrder.map fun e => (e, finalScores e))
  { emotion := dominant.1
    confidence := calculateConfidence finalScores dominant.2
    indicators := getIndicators initialResponses journalingResponses faceData voiceData dominant.1
    allScores := finalScores }

/-! ## The quality-adjusted fusion system (`advanced_fusion_system.py`) -/

/-- Insertion order of `AdvancedEmotionFusionSystem.unified_categories`. -/
def unifiedCategoriesOrder : List String :=
  ["stressed", "anxious", "frustrated", "sad", "overwhelmed", "positive", "calm"]

/-- The fields of one modality's result dict that `weighted_fusion` and
`_calculate_modality_weight` read.  `stressLikelihood` is
`data['stress_analysis'].get('stress_likelihood', 0)` when a truthy
`stress_analysis` is present, `none` otherwise. -/
structure ModalityData where
  clusterScores : Option (List (String × ℚ))
  actionableCategory : Option String
  categoryConfidence : Option ℚ
  confidence : Option ℚ
  stressLikelihood : Option ℚ
  ensembleInfo : Option String
deriving DecidableEq

/-- `AdvancedEmotionFusionSystem._create_cluster_scores`. -/
def createClusterScores (modality : String) (d : ModalityData) : List (String × ℚ) :=
  if modality = "text" then d.clusterScores.getD [("calm", 5/10)]
  else if modality = "face" ∨ modality = "voice" then
    match d.actionableCategory with
    | some cat => [(cat, d.categoryConfidence.getD (5/10))]
    | none => [("calm", 5/10)]
  else [("calm", 5/10)]

/-- The `cluster_scores` selection chain at the top of `weighted_fusion`. -/
def extractClusterScores (modality : String) (d : ModalityData) : List (String × ℚ) :=
  match d.clusterScores with
  | some cs =>
    if modality = "text" ∨ modality = "face" ∨ modality = "voice" then cs
    else createClusterScores modality d
  | none => createClusterScores modality d

/-- `base_weights.get(modality, 0.5)` of `_calculate_modality_weight`. -/
def baseWeightOf (modality : String) : ℚ :=
  if modality = "text" then 1
  else if modality = "voice" then 8/10
  else if modality = "face" then 7/10
  else 5/10

/-- `AdvancedEmotionFusionSystem._calculate_modality_weight`: base
reliability weight plus stress/ensemble/high-confidence boosts, capped
at 1.0. -/
def calculateModalityWeight (modality : String) (d : ModalityData) : ℚ :=
  let w₁ := if modality = "voice" ∧ 5/10 < d.stressLikelihood.getD 0
    then baseWeightOf modality + 2/10 else baseWeightOf modality
  let w₂ := if modality = "face" ∧
      (d.ensembleInfo.elim false fun s => occursIn "ensemble" (lowerStr s))
    then w₁ + 1/10 else w₁
  let conf := if d.categoryConfidence.getD 0 ≠ 0
    then d.categoryConfidence.getD 0 else d.confidence.getD 0
  let w₃ := if 7/10 < conf then w₂ + 1/10 else w₂
  min w₃ 1

/-- A `valid_results` entry: (modality, cluster_scores, weight). -/
abbrev SourceContribution := String × List (String × ℚ) × ℚ

/-- The `valid_results` construction loop of `weighted_fusion`: sources with
`None` data or falsy (empty) cluster scores are dropped. -/
def validResultsOf (modalityResults : List (String × Option ModalityData)) :
    List SourceContribution :=
  modalityResults.filterMap fun md =>
    match md.2 with
    | none => none
    | some d =>
      let cs := extractClusterScores md.1 d
      if cs.isEmpty then none else some (md.1, cs, calculateModalityWeight md.1 d)

/-- The per-category fusion loop of `weighted_fusion`: accumulate
`(weighted_sum, total_weight)` over the sources that contain the category,
then divide (0 when no weight accumulated). -/
def fusedScoreAt (validResults : List SourceContribution) (c : String) : ℚ :=
  let acc := validResults.foldl
    (fun (acc : ℚ × ℚ) r =>
      match alookup c r.2.1 with
      | some v => (acc.1 + v * r.2.2, acc.2 + r.2.2)
      | none => acc)
    (0, 0)
  if 0 < acc.2 then acc.1 / acc.2 else 0

/-- Specification-side sum: Σ source_score × weight over the sources that
contain the category (SPEC §4.5, quality-adjusted mode numerator). -/
def weightedSumAt : List SourceContribution → String → ℚ
  | [], _ => 0
  | r :: rest, c =>
    (match alookup c r.2.1 with | some v => v * r.2.2 | none => 0) + weightedSumAt rest c

/-- Specification-side sum: Σ weight over the sources that contain the
category (SPEC §4.5, quality-adjusted mode denominator). -/
def totalWeightAt : List SourceContribution → String → ℚ
  | [], _ => 0
  | r :: rest, c =>
    (match alookup c r.2.1 with | some _ => r.2.2 | none => 0) + totalWeightAt rest c

/-- `AdvancedEmotionFusionSystem._calculate_fusion_confidence`. -/
def fusionConfidence (validResults : List SourceContribution) (dominant : String) : ℚ :=
  let total := validResults.length
  let agreement := validResults.countP fun r =>
    match alookup dominant r.2.1 with
    | some v => decide ((3:ℚ)/10 < v)
    | none => false
  let agreementConf : ℚ := if 0 < total then (agreement : ℚ) / (total : ℚ) else 0
  let qualityBoost := validResults.foldl
    (fun acc r =>
      match alookup dominant r.2.1 with
      | some v => if 5/10 < v ∧ 8/10 < r.2.2 then acc + 1/10 else acc
      | none => acc)
    0
  min (agreementConf + qualityBoost) 1

/-- `AdvancedEmotionFusionSystem._assess_fusion_quality`. -/
def assessFusionQuality (validResults : List SourceContribution) (conf : ℚ) : String :=
  let q₁ : ℕ := if 3 ≤ validResults.length then 2
    else if 2 ≤ validResults.length then 1 else 0
  let q₂ := q₁ + (if 8/10 < conf then 2 else if 6/10 < conf then 1 else 0)
  let highQuality := validResults.countP fun r => decide ((8:ℚ)/10 < r.2.2)
  let q₃ := q₂ + (if 2 ≤ highQuality then 1 else 0)
  if 4 ≤ q₃ then "high" else if 2 ≤ q₃ then "medium"
  else if 1 ≤ q₃ then "low" else "very_low"

/-- The fields of the `weighted_fusion` result dict
(`fusion_method` is the constant `'weighted_probability'` and
`modality_details` is advisory display data). -/
structure FusionResult where
  dominantEmotion : String
  confidence : ℚ
  allScores : List (String × ℚ)
  modalitiesUsed : List String
  fusionQuality : String
deriving DecidableEq

/-- `AdvancedEmotionFusionSystem.weighted_fusion`.  `catOrder` is the
iteration order of the Python set `all_categories` (unspecified by the
language); theorems quantify over it or hypothesise that it enumerates the
union of the contributing key sets.  The `("calm", 0.5)` default of
`pyMaxPair` is the source's `top_category = ("calm", 0.5)` fallback for an
empty `fused_scores`. -/
def weightedFusion (modalityResults : List (String × Option ModalityData))
    (catOrder : List String) : Option FusionResult :=
  let vr := validResultsOf modalityResults
  if vr.isEmpty then none
  else
    let fused := catOrder.map fun c => (c, fusedScoreAt vr c)
    let top := pyMaxPair ("calm", 5/10) fused
    let conf := fusionConfidence vr top.1
    some
      { dominantEmotion := top.1
        confidence := conf
        allScores := fused
        modalitiesUsed := vr.map (·.1)
        fusionQuality := assessFusionQuality vr conf }

/-- The distinct categories contributed to a fusion call, in first-seen
order — the membership of the Python set `all_categories` as a deduplicated
list.  A legitimate `catOrder` is any permutation of this list. -/
def allCategoriesOf (validResults : List SourceContribution) : List String :=
  (validResults.foldl (fun acc r => acc ++ r.2.1.map (·.1)) []).dedup

/-- The second-highest of the eight score values, counting multiplicity:
the maximum after deleting one occurrence of the maximum. -/
def secondMax (f : Emotion → ℚ) : ℚ :=
  pyMax ((emotionOrder.map f).erase (maxVal f))

/-- Modelled from the claim under study (not from the source): the confidence
formula with the margin "taken as 0 when only one category has a nonzero
score", the tiered margin boost, the mutually exclusive strength
adjustments, and the final clamp to [0, 1]. -/
def confidenceClaimed (f : Emotion → ℚ) : ℚ :=
  let score := maxVal f
  let margin := if emotionOrder.countP (fun e => decide (f e ≠ 0)) ≤ 1 then 0
    else score - secondMax f
  max 0 (min (strengthAdjust score (boostedConf score margin)) 1)

/-- The amended confidence formula: identical to the claim except that the
margin is always dominant minus second-highest (never overridden to 0), and
the final clamp is the upper clamp `min · 1` (the value is non-negative
whenever the scores are, so this agrees with clamping to [0, 1]). -/
def confidenceAmended (f : Emotion → ℚ) : ℚ :=
  min (strengthAdjust (maxVal f) (boostedConf (maxVal f) (maxVal f - secondMax f))) 1

/-- A score map in which exactly one category (anxious) is nonzero,
with value 0.2. -/
def cexMapC4 : Emotion → ℚ := fun e => if e = Emotion.anxious then 2/10 else 0

/-- A fusion input whose single (text) source scores two categories —
anxious and calm — exactly equally: a tie for the maximum fused score. -/
def tieInput : List (String × Option ModalityData) :=
  [("text", some
    { clusterScores := some [("anxious", 5/10), ("calm", 5/10)]
      actionableCategory := none
      categoryConfidence := none
      confidence := none
      stressLikelihood := none
      ensembleInfo := none })]

/-- One enumeration order of the category set `{anxious, calm}`. -/
def orderA : List String := ["anxious", "calm"]

/-- The other enumeration order of the same category set. -/
def orderB : List String := ["calm", "anxious"]

/-- The `valid_results` list produced from `tieInput`. -/
def tieVR : List SourceContribution := [("text", [("anxious", 5/10), ("calm", 5/10)], 1)]

/-- The fusion result of `tieInput` under enumeration order `orderA`. -/
def fusionTieResult : FusionResult :=
  { dominantEmotion := "anxious"
    confidence := 1
    allScores := [("anxious", 5/10), ("calm", 5/10)]
    modalitiesUsed := ["text"]
    fusionQuality := "medium" }

/-- Totality of the descending order used by `sortedValsDesc`. -/
instance : IsTotal ℚ (fun a b => b ≤ a) := ⟨fun a b => le_total b a⟩

/-- Transitivity of the descending order used by `sortedValsDesc`. -/
instance : IsTrans ℚ (fun a b => b ≤ a) := ⟨fun _ _ _ hab hbc => le_trans hbc hab⟩

/-! ## Foundational lemmas -/

theorem foldl_max_le_self (l : List ℚ) (a : ℚ) : a ≤ l.foldl max a := by
  induction l generalizing a with
  | nil => exact le_refl a
  | cons x xs ih =>
    exact le_trans (le_max_left a x) (ih (max a x))

theorem le_foldl_max (l : List ℚ) (a x : ℚ) (hx : x ∈ l) : x ≤ l.foldl max a := by
  induction l generalizing a with
  | nil => cases hx
  | cons y ys ih =>
    rcases List.mem_cons.mp hx with h | h
    · subst h
      exact le_trans (le_max_right a x) (foldl_max_le_self ys (max a x))
    · exact ih (max a y) h

theorem foldl_max_mem (l : List ℚ) (a : ℚ) :
    l.foldl max a = a ∨ l.foldl max a ∈ l := by
  induction l generalizing a with
  | nil => exact Or.inl rfl
  | cons x xs ih =>
    rcases ih (max a x) with h | h
    · rcases max_choice a x with hm | hm
      · exact Or.inl (by rw [List.foldl_cons, h, hm])
      · exact Or.inr (by rw [List.foldl_cons, h, hm]; exact List.mem_cons_self x xs)
    · exact Or.inr (List.mem_cons_of_mem x h)

theorem pyMax_mem (l : List ℚ) (h : l ≠ []) : pyMax l ∈ l := by
  match l with
  | [] => exact absurd rfl h
  | x :: xs =>
    rcases foldl_max_mem xs x with h' | h'
    · rw [pyMax, h']; exact List.mem_cons_self x xs
    · exact List.mem_cons_of_mem x h'

theorem le_pyMax (l : List ℚ) (x : ℚ) (hx : x ∈ l) : x ≤ pyMax l := by
  match l with
  | [] => cases hx
  | y :: ys =>
    rcases List.mem_cons.mp hx with h | h
    · subst h; exact foldl_max_le_self ys x
    · exact le_foldl_max ys y x h

theorem pyMax_eq_of (l : List ℚ) (m : ℚ) (hm : m ∈ l) (hb : ∀ x ∈ l, x ≤ m) :
    pyMax l = m :=
  le_antisymm (hb _ (pyMax_mem l (by rintro rfl; cases hm))) (le_pyMax l m hm)

theorem pyMax_perm {l l' : List ℚ} (h : l.Perm l') : pyMax l = pyMax l' := by
  rcases eq_or_ne l [] with rfl | hne
  · rw [← h.nil_eq]
  · exact (pyMax_eq_of l' (pyMax l) (h.mem_iff.mp (pyMax_mem l hne))
      (fun x hx => le_pyMax l x (h.mem_iff.mpr hx))).symm

theorem foldl_max_of_le (l : List ℚ) (a : ℚ) (h : ∀ x ∈ l, x ≤ a) :
    l.foldl max a = a := by
  induction l with
  | nil => rfl
  | cons x xs ih =>
    rw [List.foldl_cons, max_eq_left (h x (List.mem_cons_self x xs))]
    exact ih (fun y hy => h y (List.mem_cons_of_mem x hy))

theorem mem_emotionOrder (e : Emotion) : e ∈ emotionOrder := by
  cases e <;> decide

theorem le_maxVal (f : Emotion → ℚ) (e : Emotion) : f e ≤ maxVal f :=
  le_pyMax _ _ (List.mem_map.mpr ⟨e, mem_emotionOrder e, rfl⟩)

theorem maxVal_nonneg (f : Emotion → ℚ) (h : ∀ e, 0 ≤ f e) : 0 ≤ maxVal f :=
  le_trans (h .anxious) (le_maxVal f .anxious)

theorem max_div_pos (a b m : ℚ) (hm : 0 < m) : max (a / m) (b / m) = max a b / m := by
  rcases le_total a b with h | h
  · rw [max_eq_right h, max_eq_right (div_le_div_of_nonneg_right h (le_of_lt hm))]
  · rw [max_eq_left h, max_eq_left (div_le_div_of_nonneg_right h (le_of_lt hm))]

theorem foldl_max_map_div (l : List ℚ) (a m : ℚ) (hm : 0 < m) :
    (l.map (· / m)).foldl max (a / m) = l.foldl max a / m := by
  induction l generalizing a with
  | nil => rfl
  | cons x xs ih =>
    rw [List.map_cons, List.foldl_cons, List.foldl_cons, max_div_pos a x m hm]
    exact ih (max a x)

theorem pyMax_map_div (l : List ℚ) (m : ℚ) (hm : 0 < m) :
    pyMax (l.map (· / m)) = pyMax l / m := by
  match l with
  | [] => simp [pyMax]
  | x :: xs =>
    rw [List.map_cons, pyMax, pyMax]
    exact foldl_max_map_div xs x m hm

theorem normalizeScores_pos_eq (f : Emotion → ℚ) (h : 0 < maxVal f) :
    normalizeScores f = fun e => f e / maxVal f := by
  funext e
  rw [normalizeScores, if_pos h]

theorem normalizeScores_of_nonpos (f : Emotion → ℚ) (h : ¬0 < maxVal f) :
    normalizeScores f = f := by
  funext e
  rw [normalizeScores, if_neg h, div_one]

theorem maxVal_normalizeScores (f : Emotion → ℚ) (h : 0 < maxVal f) :
    maxVal (normalizeScores f) = 1 := by
  rw [normalizeScores_pos_eq f h, maxVal]
  have : (emotionOrder.map fun e => f e / maxVal f) = (emotionOrder.map f).map (· / maxVal f) := by
    rw [List.map_map]; rfl
  rw [this, pyMax_map_div _ _ h]
  exact div_self (ne_of_gt h)

theorem normalizeScores_nonneg (f : Emotion → ℚ) (h : ∀ e, 0 ≤ f e) (e : Emotion) :
    0 ≤ normalizeScores f e := by
  rw [normalizeScores]
  rcases lt_or_ge 0 (maxVal f) with hm | hm
  · rw [if_pos hm]; exact div_nonneg (h e) (le_of_lt hm)
  · rw [if_neg (not_lt.mpr hm), div_one]; exact h e

theorem foldl_pickMax_spec {α : Type} (g : α → ℚ) (os : List α) :
    ∀ o : α,
      ((os.map fun e => (e, g e)).foldl pickMax (o, g o)).2
        = g ((os.map fun e => (e, g e)).foldl pickMax (o, g o)).1
      ∧ (∀ e ∈ o :: os, g e ≤ ((os.map fun e => (e, g e)).foldl pickMax (o, g o)).2)
      ∧ ∃ o₁ o₂, o :: os = o₁ ++ ((os.map fun e => (e, g e)).foldl pickMax (o, g o)).1 :: o₂
          ∧ ∀ e ∈ o₁, g e < ((os.map fun e => (e, g e)).foldl pickMax (o, g o)).2 := by
  induction os with
  | nil =>
    intro o
    refine ⟨rfl, ?_, [], [], rfl, fun e he => absurd he (List.not_mem_nil e)⟩
    intro e he
    rcases List.mem_cons.mp he with rfl | h
    · exact le_refl _
    · cases h
  | cons y ys ih =>
    intro o
    rw [List.map_cons, List.foldl_cons]
    by_cases hgy : g o < g y
    · have hstep : pickMax (o, g o) (y, g y) = (y, g y) := by
        rw [pickMax, if_pos hgy]
      rw [hstep]
      obtain ⟨hval, hmax, o₁, o₂, hsplit, hlt⟩ := ih y
      refine ⟨hval, ?_, o :: o₁, o₂, ?_, ?_⟩
      · intro e he
        rcases List.mem_cons.mp he with rfl | h
        · exact le_trans (le_of_lt hgy) (hmax y (List.mem_cons_self y ys))
        · exact hmax e h
      · rw [List.cons_append, ← hsplit]
      · intro e he
        rcases List.mem_cons.mp he with rfl | h
        · exact lt_of_lt_of_le hgy (hmax y (List.mem_cons_self y ys))
        · exact hlt e h
    · have hstep : pickMax (o, g o) (y, g y) = (o, g o) := by
        rw [pickMax, if_neg hgy]
      rw [hstep]
      obtain ⟨hval, hmax, o₁, o₂, hsplit, hlt⟩ := ih o
      have hmax' : ∀ e ∈ o :: y :: ys,
          g e ≤ ((ys.map fun e => (e, g e)).foldl pickMax (o, g o)).2 := by
        intro e he
        rcases List.mem_cons.mp he with rfl | h
        · exact hmax e (List.mem_cons_self e ys)
        · rcases List.mem_cons.mp h with rfl | h'
          · exact le_trans (not_lt.mp hgy) (hmax o (List.mem_cons_self o ys))
          · exact hmax e (List.mem_cons_of_mem o h')
      refine ⟨hval, hmax', ?_⟩
      cases o₁ with
      | nil =>
        have ho : ((ys.map fun e => (e, g e)).foldl pickMax (o, g o)).1 = o := by
          have := congrArg (fun l => l.headD o) hsplit
          simpa using this.symm
        exact ⟨[], y :: ys, by rw [ho, List.nil_append], fun e he => absurd he (List.not_mem_nil e)⟩
      | cons o' o₁' =>
        have ho : o = o' := by
          have := congrArg (fun l => l.headD o) hsplit
          simpa using this
        subst ho
        have htail : ys = o₁' ++ ((ys.map fun e => (e, g e)).foldl pickMax (o, g o)).1 :: o₂ := by
          have := congrArg List.tail hsplit
          simpa using this
        refine ⟨o :: y :: o₁', o₂, ?_, ?_⟩
        · rw [List.cons_append, List.cons_append, ← htail]
        · intro e he
          rcases List.mem_cons.mp he with rfl | h
          · exact hlt e (List.mem_cons_self e o₁')
          · rcases List.mem_cons.mp h with rfl | h'
            · exact lt_of_le_of_lt (not_lt.mp hgy) (hlt o (List.mem_cons_self o o₁'))
            · exact hlt e (List.mem_cons_of_mem o h')

theorem maxVal_of_all_zero (f : Emotion → ℚ) (h : ∀ e, f e = 0) : maxVal f = 0 := by
  apply pyMax_eq_of
  · exact List.mem_map.mpr ⟨.anxious, mem_emotionOrder _, h _⟩
  · intro x hx
    obtain ⟨e, _, rfl⟩ := List.mem_map.mp hx
    rw [h e]

theorem normalizeScores_of_all_zero (f : Emotion → ℚ) (h : ∀ e, f e = 0) :
    normalizeScores f = f :=
  normalizeScores_of_nonpos f (by rw [maxVal_of_all_zero f h]; exact lt_irrefl 0)

theorem normalizeScores_idem (f : Emotion → ℚ) :
    normalizeScores (normalizeScores f) = normalizeScores f := by
  rcases lt_or_ge 0 (maxVal f) with h | h
  · have h1 : maxVal (normalizeScores f) = 1 := maxVal_normalizeScores f h
    funext e
    show normalizeScores f e /
      (if 0 < maxVal (normalizeScores f) then maxVal (normalizeScores f) else 1)
        = normalizeScores f e
    rw [h1, if_pos one_pos, div_one]
  · rw [normalizeScores_of_nonpos f (not_lt.mpr h)]
    exact normalizeScores_of_nonpos f (not_lt.mpr h)

theorem sortedValsDesc_perm (f : Emotion → ℚ) :
    (sortedValsDesc f).Perm (emotionOrder.map f) :=
  List.perm_insertionSort _ _

theorem sortedValsDesc_sorted (f : Emotion → ℚ) :
    List.Sorted (fun a b => b ≤ a) (sortedValsDesc f) :=
  List.sorted_insertionSort _ _

theorem sortedValsDesc_length (f : Emotion → ℚ) : (sortedValsDesc f).length = 8 := by
  rw [sortedValsDesc, List.length_insertionSort, List.length_map]
  rfl

theorem getD_one_sorted_desc (l s : List ℚ) (hperm : s.Perm l)
    (hsort : List.Sorted (fun a b => b ≤ a) s) (hlen : 2 ≤ s.length) :
    s.getD 1 0 = pyMax (l.erase (pyMax l)) := by
  match s, hlen with
  | a :: b :: t, _ =>
    have hab : ∀ x ∈ b :: t, x ≤ a := (List.sorted_cons.mp hsort).1
    have hbt : ∀ x ∈ t, x ≤ b := (List.sorted_cons.mp (List.sorted_cons.mp hsort).2).1
    have hmaxs : pyMax (a :: b :: t) = a := by
      rw [pyMax]
      exact foldl_max_of_le _ _ hab
    have hmaxl : pyMax l = a := by rw [← pyMax_perm hperm, hmaxs]
    have herase : (l.erase a).Perm (b :: t) := by
      have h1 : (l.erase a).Perm ((a :: b :: t).erase a) := List.Perm.erase a hperm.symm
      rwa [List.erase_cons_head] at h1
    have hmaxbt : pyMax (b :: t) = b := by
      rw [pyMax]
      exact foldl_max_of_le _ _ hbt
    rw [hmaxl, pyMax_perm herase, hmaxbt]
    rfl

theorem sortedValsDesc_getD_one (f : Emotion → ℚ) :
    (sortedValsDesc f).getD 1 0 = secondMax f :=
  getD_one_sorted_desc (emotionOrder.map f) (sortedValsDesc f) (sortedValsDesc_perm f)
    (sortedValsDesc_sorted f) (by rw [sortedValsDesc_length]; norm_num)

theorem sortedValsDesc_getD_le_maxVal (f : Emotion → ℚ) :
    (sortedValsDesc f).getD 1 0 ≤ maxVal f := by
  have hlen : 1 < (sortedValsDesc f).length := by rw [sortedValsDesc_length]; norm_num
  rw [List.getD_eq_getElem _ _ hlen]
  have hmem : (sortedValsDesc f)[1] ∈ emotionOrder.map f :=
    (sortedValsDesc_perm f).mem_iff.mp (List.getElem_mem hlen)
  exact le_pyMax _ _ hmem

theorem calculateConfidence_eq_amended (f : Emotion → ℚ) :
    calculateConfidence f (maxVal f) = confidenceAmended f := by
  have h2 : 2 ≤ (sortedValsDesc f).length := by rw [sortedValsDesc_length]; norm_num
  simp only [calculateConfidence, confidenceAmended]
  rw [if_pos h2, sortedValsDesc_getD_one]

theorem boostedConf_nonneg (score sep : ℚ) (hs : 0 ≤ score) (hsep : 0 ≤ sep) :
    0 ≤ boostedConf score sep := by
  rw [boostedConf]
  split_ifs
  · linarith
  · nlinarith
  · nlinarith

theorem strengthAdjust_nonneg (score conf : ℚ) (hc : 0 ≤ conf) :
    0 ≤ strengthAdjust score conf := by
  rw [strengthAdjust]
  split_ifs
  · nlinarith
  · exact le_min (by linarith) zero_le_one
  · exact hc

theorem calculateConfidence_le_one (f : Emotion → ℚ) (s : ℚ) :
    calculateConfidence f s ≤ 1 :=
  min_le_right _ _

theorem calculateConfidence_nonneg (f : Emotion → ℚ) (h : ∀ e, 0 ≤ f e) :
    0 ≤ calculateConfidence f (maxVal f) := by
  have hs : 0 ≤ maxVal f := maxVal_nonneg f h
  have hsep : 0 ≤ maxVal f - (sortedValsDesc f).getD 1 0 :=
    sub_nonneg.mpr (sortedValsDesc_getD_le_maxVal f)
  simp only [calculateConfidence]
  refine le_min ?_ zero_le_one
  split_ifs with hlen
  · exact strengthAdjust_nonneg _ _ (boostedConf_nonneg _ _ hs hsep)
  · exact strengthAdjust_nonneg _ _ hs

theorem fusedAccum_eq (c : String) (vr : List SourceContribution) :
    ∀ a b : ℚ,
      vr.foldl
        (fun (acc : ℚ × ℚ) r =>
          match alookup c r.2.1 with
          | some v => (acc.1 + v * r.2.2, acc.2 + r.2.2)
          | none => acc)
        (a, b)
      = (a + weightedSumAt vr c, b + totalWeightAt vr c) := by
  induction vr with
  | nil => intro a b; simp [weightedSumAt, totalWeightAt]
  | cons r rest ih =>
    intro a b
    rw [List.foldl_cons]
    cases halo : alookup c r.2.1 with
    | none =>
      simp only [halo]
      rw [ih a b]
      simp [weightedSumAt, totalWeightAt, halo]
    | some v =>
      simp only [halo]
      rw [ih (a + v * r.2.2) (b + r.2.2)]
      simp only [weightedSumAt, totalWeightAt, halo]
      rw [Prod.mk.injEq]
      constructor <;> ring

theorem fusedScoreAt_eq (vr : List SourceContribution) (c : String) :
    fusedScoreAt vr c =
      if 0 < totalWeightAt vr c then weightedSumAt vr c / totalWeightAt vr c else 0 := by
  simp only [fusedScoreAt]
  rw [fusedAccum_eq c vr 0 0]
  simp

theorem weightedSumAt_append (l₁ l₂ : List SourceContribution) (c : String) :
    weightedSumAt (l₁ ++ l₂) c = weightedSumAt l₁ c + weightedSumAt l₂ c := by
  induction l₁ with
  | nil => simp [weightedSumAt]
  | cons r rest ih => simp [weightedSumAt, ih]; ring

theorem totalWeightAt_append (l₁ l₂ : List SourceContribution) (c : String) :
    totalWeightAt (l₁ ++ l₂) c = totalWeightAt l₁ c + totalWeightAt l₂ c := by
  induction l₁ with
  | nil => simp [totalWeightAt]
  | cons r rest ih => simp [totalWeightAt, ih]; ring

theorem weightedSumAt_of_none (l : List SourceContribution) (c : String)
    (h : ∀ r ∈ l, alookup c r.2.1 = none) : weightedSumAt l c = 0 := by
  induction l with
  | nil => rfl
  | cons r rest ih =>
    rw [weightedSumAt, h r (List.mem_cons_self r rest),
      ih (fun x hx => h x (List.mem_cons_of_mem r hx))]
    simp

theorem totalWeightAt_of_none (l : List SourceContribution) (c : String)
    (h : ∀ r ∈ l, alookup c r.2.1 = none) : totalWeightAt l c = 0 := by
  induction l with
  | nil => rfl
  | cons r rest ih =>
    rw [totalWeightAt, h r (List.mem_cons_self r rest),
      ih (fun x hx => h x (List.mem_cons_of_mem r hx))]
    simp

theorem le_foldl_of_step_mem {β : Type} (step : ℚ → β → ℚ) (l : List β)
    (h : ∀ a : ℚ, ∀ x ∈ l, a ≤ step a x) : ∀ a : ℚ, a ≤ l.foldl step a := by
  induction l with
  | nil => intro a; exact le_refl a
  | cons x xs ih =>
    intro a
    rw [List.foldl_cons]
    exact le_trans (h a x (List.mem_cons_self x xs))
      (ih (fun a y hy => h a y (List.mem_cons_of_mem x hy)) (step a x))

theorem alookup_getD_nonneg {α : Type} [DecidableEq α] (k : α) (l : List (α × ℚ))
    (h : ∀ p ∈ l, 0 ≤ p.2) : 0 ≤ (alookup k l).getD 0 := by
  induction l with
  | nil => exact le_refl 0
  | cons p t ih =>
    rw [alookup]
    split_ifs
    · exact h p (List.mem_cons_self p t)
    · exact ih (fun q hq => h q (List.mem_cons_of_mem p hq))

theorem alookup_mem {α β : Type} [DecidableEq α] {k : α} {l : List (α × β)} {v : β}
    (h : alookup k l = some v) : (k, v) ∈ l := by
  induction l with
  | nil => cases h
  | cons p t ih =>
    rw [alookup] at h
    split_ifs at h with hk
    · obtain rfl := Option.some.injEq _ _ ▸ h
      obtain rfl := hk
      exact List.mem_cons_self _ _
    · exact List.mem_cons_of_mem p (ih h)

set_option maxHeartbeats 2000000 in
theorem questionWeightsTable_nonneg :
    ∀ qp ∈ questionWeightsTable, ∀ ap ∈ qp.2, ∀ p ∈ ap.2, 0 ≤ p.2 := by
  intro qp hqp
  fin_cases hqp <;>
    (intro ap hap
     fin_cases hap <;>
       (intro p hp
        fin_cases hp <;> norm_num))

theorem questionWeights_nonneg (q a : String) :
    ∀ p ∈ questionWeights q a, 0 ≤ p.2 := by
  intro p hp
  rw [questionWeights] at hp
  cases hq : alookup q questionWeightsTable with
  | none => rw [hq] at hp; exact absurd hp (List.not_mem_nil p)
  | some answers =>
    rw [hq] at hp
    have hp' : p ∈ (match alookup a answers with
        | some weights => weights
        | none => ([] : List (Emotion × ℚ))) := hp
    cases ha : alookup a answers with
    | none => rw [ha] at hp'; exact absurd hp' (List.not_mem_nil p)
    | some weights =>
      rw [ha] at hp'
      exact questionWeightsTable_nonneg (q, answers) (alookup_mem hq) (a, weights)
        (alookup_mem ha) p hp' 

theorem weightFor_nonneg (q a : String) (e : Emotion) : 0 ≤ weightFor q a e :=
  alookup_getD_nonneg e _ (questionWeights_nonneg q a)

theorem scoreInitialRaw_nonneg (rs : List (String × String)) (e : Emotion) :
    0 ≤ scoreInitialRaw rs e :=
  le_foldl_of_step_mem _ rs
    (fun acc qa _ => le_add_of_nonneg_right (weightFor_nonneg qa.1 qa.2 e)) 0

theorem scoreJournalingRaw_nonneg (rs : List (String × String)) (e : Emotion) :
    0 ≤ scoreJournalingRaw rs e := by
  refine le_foldl_of_step_mem _ rs (fun acc p _ => ?_) 0
  split_ifs
  · exact le_refl acc
  · exact le_add_of_nonneg_right (Nat.cast_nonneg _)

theorem scoreClusterRaw_nonneg (cs : List (String × ℚ)) (h : ∀ p ∈ cs, 0 ≤ p.2)
    (e : Emotion) : 0 ≤ scoreClusterRaw cs e := by
  refine le_foldl_of_step_mem _ cs (fun acc p hp => ?_) 0
  cases alookup p.1 clusterMapping with
  | none => exact le_refl acc
  | some m =>
    simp only
    split_ifs
    · exact le_add_of_nonneg_right (h p hp)
    · exact le_refl acc

theorem scoreInitialResponses_nonneg (rs : List (String × String)) (e : Emotion) :
    0 ≤ scoreInitialResponses rs e :=
  normalizeScores_nonneg _ (scoreInitialRaw_nonneg rs) e

theorem scoreJournalingResponses_nonneg (rs : List (String × String)) (e : Emotion) :
    0 ≤ scoreJournalingResponses rs e := by
  rw [scoreJournalingResponses]
  split_ifs
  · exact le_refl 0
  · exact normalizeScores_nonneg _ (scoreJournalingRaw_nonneg rs) e

theorem scoreFace_nonneg (d : FaceVoiceData)
    (h : ∀ cs, d.clusterScores = some cs → ∀ p ∈ cs, 0 ≤ p.2) (e : Emotion) :
    0 ≤ scoreFace d e := by
  rw [scoreFace]
  cases hcs : d.clusterScores with
  | none => exact le_refl 0
  | some cs => exact normalizeScores_nonneg _ (scoreClusterRaw_nonneg cs (h cs hcs)) e

theorem scoreVoice_nonneg (d : FaceVoiceData)
    (h : ∀ cs, d.clusterScores = some cs → ∀ p ∈ cs, 0 ≤ p.2) (e : Emotion) :
    0 ≤ scoreVoice d e := by
  rw [scoreVoice]
  cases hcs : d.clusterScores with
  | none => exact le_refl 0
  | some cs => exact normalizeScores_nonneg _ (scoreClusterRaw_nonneg cs (h cs hcs)) e

theorem combineScores_nonneg (i j f v : Emotion → ℚ) (hi : ∀ e, 0 ≤ i e)
    (hj : ∀ e, 0 ≤ j e) (hf : ∀ e, 0 ≤ f e) (hv : ∀ e, 0 ≤ v e) (e : Emotion) :
    0 ≤ combineScores i j f v e := by
  have := hi e; have := hj e; have := hf e; have := hv e
  rw [combineScores]
  nlinarith

theorem pyMaxPair_snd_eq (f : Emotion → ℚ) :
    (pyMaxPair (Emotion.anxious, 0) (emotionOrder.map fun e => (e, f e))).2 = maxVal f := by
  have hspec := foldl_pickMax_spec f
    [Emotion.sad, .frustrated, .overwhelmed, .calm, .happy, .neutral, .tired] Emotion.anxious
  obtain ⟨hval, hmax, o₁, o₂, hsplit, -⟩ := hspec
  apply (pyMax_eq_of _ _ ?_ ?_).symm
  · refine List.mem_map.mpr ⟨_, ?_, hval.symm⟩
    have : (((
      [Emotion.sad, .frustrated, .overwhelmed, .calm, .happy, .neutral, .tired].map
        fun e => (e, f e)).foldl pickMax (Emotion.anxious, f Emotion.anxious)).1)
        ∈ Emotion.anxious ::
          [Emotion.sad, .frustrated, .overwhelmed, .calm, .happy, .neutral, .tired] := by
      rw [hsplit]
      exact List.mem_append.mpr (Or.inr (List.mem_cons_self _ _))
    exact this
  · intro x hx
    obtain ⟨e, he, rfl⟩ := List.mem_map.mp hx
    exact hmax e he

theorem detectEmotion_allScores (ir jr : List (String × String))
    (fd vd : Option FaceVoiceData) :
    (detectEmotion ir jr fd vd).allScores
      = combineScores (scoreInitialResponses ir) (scoreJournalingResponses jr)
          (match fd with | some d => scoreFace d | none => fun _ => 0)
          (match vd with | some d => scoreVoice d | none => fun _ => 0) := rfl

theorem detectEmotion_emotion (ir jr : List (String × String))
    (fd vd : Option FaceVoiceData) :
    (detectEmotion ir jr fd vd).emotion
      = (pyMaxPair (Emotion.anxious, 0)
          (emotionOrder.map fun e => (e, (detectEmotion ir jr fd vd).allScores e))).1 := rfl

theorem detectEmotion_confidence_eq (ir jr : List (String × String))
    (fd vd : Option FaceVoiceData) :
    (detectEmotion ir jr fd vd).confidence
      = calculateConfidence ((detectEmotion ir jr fd vd).allScores)
          (maxVal ((detectEmotion ir jr fd vd).allScores)) := by
  rw [show (detectEmotion ir jr fd vd).confidence
      = calculateConfidence ((detectEmotion ir jr fd vd).allScores)
          ((pyMaxPair (Emotion.anxious, 0)
            (emotionOrder.map fun e => (e, (detectEmotion ir jr fd vd).allScores e))).2)
      from rfl, pyMaxPair_snd_eq]

theorem detectEmotion_indicators (ir jr : List (String × String))
    (fd vd : Option FaceVoiceData) :
    (detectEmotion ir jr fd vd).indicators
      = getIndicators ir jr fd vd (detectEmotion ir jr fd vd).emotion := rfl

theorem detectEmotion_allScores_nonneg (ir jr : List (String × String))
    (fd vd : Option FaceVoiceData)
    (hface : ∀ d cs, fd = some d → d.clusterScores = some cs → ∀ p ∈ cs, 0 ≤ p.2)
    (hvoice : ∀ d cs, vd = some d → d.clusterScores = some cs → ∀ p ∈ cs, 0 ≤ p.2)
    (e : Emotion) : 0 ≤ (detectEmotion ir jr fd vd).allScores e := by
  rw [detectEmotion_allScores]
  refine combineScores_nonneg _ _ _ _ (scoreInitialResponses_nonneg ir)
    (scoreJournalingResponses_nonneg jr) ?_ ?_ e
  · cases fd with
    | none => intro e'; exact le_refl 0
    | some d => exact scoreFace_nonneg d (fun cs hcs => hface d cs rfl hcs)
  · cases vd with
    | none => intro e'; exact le_refl 0
    | some d => exact scoreVoice_nonneg d (fun cs hcs => hvoice d cs rfl hcs)

theorem fusionConfidence_nonneg (vr : List SourceContribution) (dom : String) :
    0 ≤ fusionConfidence vr dom := by
  simp only [fusionConfidence]
  refine le_min (add_nonneg ?_ ?_) zero_le_one
  · split_ifs
    · positivity
    · exact le_refl 0
  · refine le_foldl_of_step_mem _ vr (fun acc r _ => ?_) 0
    cases alookup dom r.2.1 with
    | none => exact le_refl acc
    | some v =>
      simp only
      split_ifs
      · exact le_add_of_nonneg_right (by norm_num)
      · exact le_refl acc

theorem fusionConfidence_le_one (vr : List SourceContribution) (dom : String) :
    fusionConfidence vr dom ≤ 1 :=
  min_le_right _ _

/-- Claim C5: for a score map with a strictly positive entry, the normalised map
has maximum exactly 1; an all-zero map is left unchanged; and normalisation
is idempotent.  (`_score_initial_responses` lines 185–190 and
`_score_journaling_responses` lines 255–260 share this step, embedded once
as `normalizeScores`.) -/
theorem claim_C5_normalization :
    (∀ f : Emotion → ℚ, (∃ e, 0 < f e) → maxVal (normalizeScores f) = 1)
    ∧ (∀ f : Emotion → ℚ, (∀ e, f e = 0) → normalizeScores f = f)
    ∧ (∀ f : Emotion → ℚ, normalizeScores (normalizeScores f) = normalizeScores f) := by
  refine ⟨?_, normalizeScores_of_all_zero, normalizeScores_idem⟩
  rintro f ⟨e, he⟩
  exact maxVal_normalizeScores f (lt_of_lt_of_le he (le_maxVal f e))

/-- Witness for C5 at the map scoring 2 on `happy` and 0 elsewhere. -/
theorem claim_C5_normalization_witness :
    (∃ e, 0 < (fun e => if e = Emotion.happy then (2:ℚ) else 0) e)
    ∧ maxVal (normalizeScores (fun e => if e = Emotion.happy then (2:ℚ) else 0)) = 1 :=
  ⟨⟨Emotion.happy, by simp⟩,
   claim_C5_normalization.1 _ ⟨Emotion.happy, by simp⟩⟩

/-- Claim C8: for every valid input (any structured answers and journaling texts,
and non-negative modality score maps), the confidence of the returned result
lies in [0, 1] — both for `detect_emotion` and for `weighted_fusion`. -/
theorem claim_C8_confidence_bounds :
    (∀ (ir jr : List (String × String)) (fd vd : Option FaceVoiceData),
      (∀ d cs, fd = some d → d.clusterScores = some cs → ∀ p ∈ cs, 0 ≤ p.2) →
      (∀ d cs, vd = some d → d.clusterScores = some cs → ∀ p ∈ cs, 0 ≤ p.2) →
      0 ≤ (detectEmotion ir jr fd vd).confidence
        ∧ (detectEmotion ir jr fd vd).confidence ≤ 1)
    ∧ (∀ (mr : List (String × Option ModalityData)) (catOrder : List String)
        (r : FusionResult),
      weightedFusion mr catOrder = some r → 0 ≤ r.confidence ∧ r.confidence ≤ 1) := by
  constructor
  · intro ir jr fd vd hface hvoice
    rw [detectEmotion_confidence_eq]
    exact ⟨calculateConfidence_nonneg _ (detectEmotion_allScores_nonneg ir jr fd vd hface hvoice),
      calculateConfidence_le_one _ _⟩
  · intro mr catOrder r h
    simp only [weightedFusion] at h
    by_cases hvr : (validResultsOf mr).isEmpty
    · rw [if_pos hvr] at h
      cases h
    · rw [if_neg hvr] at h
      obtain rfl := (Option.some.injEq _ _).mp h
      exact ⟨fusionConfidence_nonneg _ _, fusionConfidence_le_one _ _⟩

theorem validResultsOf_tieInput : validResultsOf tieInput = tieVR := by
  norm_num [validResultsOf, tieInput, tieVR, extractClusterScores, createClusterScores,
    calculateModalityWeight, baseWeightOf, List.filterMap]

theorem fusedScoreAt_tie_anxious : fusedScoreAt tieVR "anxious" = 5/10 := by
  rw [fusedScoreAt_eq]
  norm_num [tieVR, weightedSumAt, totalWeightAt, alookup]

theorem fusedScoreAt_tie_calm : fusedScoreAt tieVR "calm" = 5/10 := by
  rw [fusedScoreAt_eq]
  norm_num [tieVR, weightedSumAt, totalWeightAt, alookup]

theorem fusionConfidence_tie_anxious : fusionConfidence tieVR "anxious" = 1 := by
  norm_num [fusionConfidence, tieVR, alookup, List.countP_cons, List.countP_nil, List.foldl]

theorem fusionConfidence_tie_calm : fusionConfidence tieVR "calm" = 1 := by
  norm_num [fusionConfidence, tieVR, alookup, List.countP_cons, List.countP_nil, List.foldl]

theorem assessFusionQuality_tie : assessFusionQuality tieVR 1 = "medium" := by
  norm_num [assessFusionQuality, tieVR, List.countP_cons, List.countP_nil]

theorem weightedFusion_tie_orderA : weightedFusion tieInput orderA = some fusionTieResult := by
  have hmap : orderA.map (fun c => (c, fusedScoreAt tieVR c))
      = [("anxious", (5:ℚ)/10), ("calm", 5/10)] := by
    simp [orderA, fusedScoreAt_tie_anxious, fusedScoreAt_tie_calm]
  have hpy : pyMaxPair ("calm", (5:ℚ)/10) [("anxious", (5:ℚ)/10), ("calm", 5/10)]
      = ("anxious", 5/10) := by
    simp [pyMaxPair, List.foldl, pickMax]
  simp only [weightedFusion, validResultsOf_tieInput]
  rw [hmap, hpy, show tieVR.isEmpty = false from rfl]
  rw [fusionConfidence_tie_anxious]
  simp [fusionTieResult, assessFusionQuality_tie,
    show tieVR.map (·.1) = ["text"] from rfl]

theorem weightedFusion_tie_orderB :
    (weightedFusion tieInput orderB).map FusionResult.dominantEmotion = some "calm" := by
  have hmap : orderB.map (fun c => (c, fusedScoreAt tieVR c))
      = [("calm", (5:ℚ)/10), ("anxious", 5/10)] := by
    simp [orderB, fusedScoreAt_tie_anxious, fusedScoreAt_tie_calm]
  have hpy : pyMaxPair ("calm", (5:ℚ)/10) [("calm", (5:ℚ)/10), ("anxious", 5/10)]
      = ("calm", 5/10) := by
    simp [pyMaxPair, List.foldl, pickMax]
  simp only [weightedFusion, validResultsOf_tieInput]
  rw [hmap, hpy, show tieVR.isEmpty = false from rfl]
  simp

/-- Claim C2 counterexample: in quality-adjusted fusion the dominant category of a
tied input depends on the iteration order of the category set.  `orderA` and
`orderB` are permutations of each other and of the category set of
`tieInput`; the two fused scores are exactly equal; yet the dominant is
"anxious" under one order and "calm" under the other — and "anxious" comes
before "calm" in the `unified_categories` registry order, so the run that
returns "calm" violates registry-order tie-breaking. -/
theorem claim_C2_counterexample :
    orderA.Perm orderB
    ∧ orderA.Perm (allCategoriesOf (validResultsOf tieInput))
    ∧ orderB.Perm (allCategoriesOf (validResultsOf tieInput))
    ∧ fusedScoreAt (validResultsOf tieInput) "anxious"
        = fusedScoreAt (validResultsOf tieInput) "calm"
    ∧ (weightedFusion tieInput orderA).map FusionResult.dominantEmotion = some "anxious"
    ∧ (weightedFusion tieInput orderB).map FusionResult.dominantEmotion = some "calm"
    ∧ unifiedCategoriesOrder
        = ["stressed"] ++ ["anxious"] ++ ["frustrated", "sad", "overwhelmed", "positive"]
            ++ ["calm"] := by
  refine ⟨by decide, ?_, ?_, ?_, ?_, weightedFusion_tie_orderB, rfl⟩
  · rw [validResultsOf_tieInput]
    decide
  · rw [validResultsOf_tieInput]
    decide
  · rw [validResultsOf_tieInput, fusedScoreAt_tie_anxious, fusedScoreAt_tie_calm]
  · rw [weightedFusion_tie_orderA]
    rfl

/-- Claim C2 amended: the dominant category is always a maximiser of the fused
score map, and ties break to the category that comes first in the order in
which the score map is built: for `detect_emotion` (simple weighted mode)
that order is the Category Registry order, so registry-order tie-breaking
holds there; for `weighted_fusion` (quality-adjusted mode) it is the
iteration order of the category set, which is unspecified and need not
match the registry (see the counterexample). -/
theorem claim_C2_amended :
    (∀ (ir jr : List (String × String)) (fd vd : Option FaceVoiceData),
      ∃ o₁ o₂, emotionOrder = o₁ ++ (detectEmotion ir jr fd vd).emotion :: o₂
        ∧ (∀ e : Emotion, (detectEmotion ir jr fd vd).allScores e
            ≤ (detectEmotion ir jr fd vd).allScores (detectEmotion ir jr fd vd).emotion)
        ∧ (∀ e ∈ o₁, (detectEmotion ir jr fd vd).allScores e
            < (detectEmotion ir jr fd vd).allScores (detectEmotion ir jr fd vd).emotion))
    ∧ (∀ (mr : List (String × Option ModalityData)) (catOrder : List String)
        (r : FusionResult), weightedFusion mr catOrder = some r → catOrder ≠ [] →
      ∃ c₁ c₂, catOrder = c₁ ++ r.dominantEmotion :: c₂
        ∧ (∀ c ∈ catOrder, fusedScoreAt (validResultsOf mr) c
            ≤ fusedScoreAt (validResultsOf mr) r.dominantEmotion)
        ∧ (∀ c ∈ c₁, fusedScoreAt (validResultsOf mr) c
            < fusedScoreAt (validResultsOf mr) r.dominantEmotion)) := by
  constructor
  · intro ir jr fd vd
    obtain ⟨hval, hmax, o₁, o₂, hsplit, hlt⟩ :=
      foldl_pickMax_spec ((detectEmotion ir jr fd vd).allScores)
        [Emotion.sad, .frustrated, .overwhelmed, .calm, .happy, .neutral, .tired]
        Emotion.anxious
    exact ⟨o₁, o₂, hsplit, fun e => hval ▸ hmax e (mem_emotionOrder e),
      fun e he => hval ▸ hlt e he⟩
  · intro mr catOrder r h hne
    match catOrder, hne with
    | c :: cs, _ =>
      simp only [weightedFusion] at h
      by_cases hvr : (validResultsOf mr).isEmpty
      · rw [if_pos hvr] at h
        cases h
      · rw [if_neg hvr] at h
        obtain rfl := (Option.some.injEq _ _).mp h
        obtain ⟨hval, hmax, c₁, c₂, hsplit, hlt⟩ :=
          foldl_pickMax_spec (fusedScoreAt (validResultsOf mr)) cs c
        exact ⟨c₁, c₂, hsplit, fun x hx => hval ▸ hmax x hx, fun x hx => hval ▸ hlt x hx⟩

/-- Witness for C2 (amended), instantiating the quality-adjusted part at
`tieInput` with enumeration order `orderA`. -/
theorem claim_C2_amended_witness :
    weightedFusion tieInput orderA = some fusionTieResult
    ∧ ∃ c₁ c₂, orderA = c₁ ++ fusionTieResult.dominantEmotion :: c₂
        ∧ (∀ c ∈ orderA, fusedScoreAt (validResultsOf tieInput) c
            ≤ fusedScoreAt (validResultsOf tieInput) fusionTieResult.dominantEmotion)
        ∧ (∀ c ∈ c₁, fusedScoreAt (validResultsOf tieInput) c
            < fusedScoreAt (validResultsOf tieInput) fusionTieResult.dominantEmotion) :=
  ⟨weightedFusion_tie_orderA,
   (claim_C2_amended.2 tieInput orderA fusionTieResult weightedFusion_tie_orderA
     (by decide)).imp (fun c₁ h => h)⟩

theorem calculateConfidence_of_all_zero (f : Emotion → ℚ) (h : ∀ e, f e = 0) :
    calculateConfidence f (maxVal f) = 0 := by
  have hmap : emotionOrder.map f = [0, 0, 0, 0, 0, 0, 0, 0] := by
    simp [emotionOrder, h]
  have hmax : maxVal f = 0 := by
    rw [maxVal, hmap]
    norm_num [pyMax, List.foldl]
  have hsecond : secondMax f = 0 := by
    rw [secondMax, hmap, hmax, List.erase_cons_head]
    norm_num [pyMax, List.foldl]
  rw [calculateConfidence_eq_amended, confidenceAmended, hmax, hsecond]
  norm_num [boostedConf, strengthAdjust]

theorem detectEmotion_empty_allScores :
    ∀ e, (detectEmotion [] [] none none).allScores e = 0 := by
  intro e
  rw [detectEmotion_allScores]
  have h1 : scoreInitialResponses [] e = 0 := by
    rw [scoreInitialResponses,
      normalizeScores_of_all_zero (scoreInitialRaw []) (fun _ => rfl)]
    rfl
  have h2 : scoreJournalingResponses [] e = 0 := rfl
  rw [combineScores, h1, h2]
  norm_num

theorem pyMaxPair_all_zero (f : Emotion → ℚ) (h : ∀ e, f e = 0) :
    pyMaxPair (Emotion.anxious, 0) (emotionOrder.map fun e => (e, f e))
      = (Emotion.anxious, 0) := by
  have hmap : emotionOrder.map (fun e => (e, f e))
      = emotionOrder.map (fun e => (e, 0)) := by
    apply List.map_congr_left
    intro e _
    rw [h e]
  rw [hmap]
  simp [emotionOrder, pyMaxPair, List.foldl, pickMax]

/-- Claim C1 amended: when every source abstains, `detect_emotion` does not raise
and returns confidence 0 with an empty indicator list, but the dominant
category is "anxious" — the first category in registry order, since
`max` over the all-zero score dict keeps the first maximal item — not
"calm"; and `weighted_fusion` returns `None` (no result at all) when every
source abstains. -/
theorem claim_C1_amended :
    (detectEmotion [] [] none none).emotion = Emotion.anxious
    ∧ (detectEmotion [] [] none none).confidence = 0
    ∧ (detectEmotion [] [] none none).indicators = []
    ∧ ∀ catOrder : List String, weightedFusion [] catOrder = none := by
  have hFS := detectEmotion_empty_allScores
  have hemo : (detectEmotion [] [] none none).emotion = Emotion.anxious := by
    rw [detectEmotion_emotion, pyMaxPair_all_zero _ hFS]
  refine ⟨hemo, ?_, ?_, fun catOrder => rfl⟩
  · rw [detectEmotion_confidence_eq, calculateConfidence_of_all_zero _ hFS]
  · rw [detectEmotion_indicators, hemo]
    rfl

/-- Claim C1 counterexample: with every source abstaining the dominant category is
not "calm" (it is "anxious"), and `weighted_fusion` does not return a
"calm" result — it returns `None`. -/
theorem claim_C1_counterexample :
    (detectEmotion [] [] none none).emotion ≠ Emotion.calm
    ∧ weightedFusion [] [] = none := by
  constructor
  · have hFS := detectEmotion_empty_allScores
    have hemo : (detectEmotion [] [] none none).emotion = Emotion.anxious := by
      rw [detectEmotion_emotion, pyMaxPair_all_zero _ hFS]
    rw [hemo]
    decide
  · rfl

/-- Witness for C8 at the all-empty detection input and at `tieInput`. -/
theorem claim_C8_confidence_bounds_witness :
    (0 ≤ (detectEmotion [] [] none none).confidence
      ∧ (detectEmotion [] [] none none).confidence ≤ 1)
    ∧ (0 ≤ fusionTieResult.confidence ∧ fusionTieResult.confidence ≤ 1) :=
  ⟨claim_C8_confidence_bounds.1 [] [] none none (fun _ _ h => nomatch h)
      (fun _ _ h => nomatch h),
   claim_C8_confidence_bounds.2 tieInput orderA fusionTieResult weightedFusion_tie_orderA⟩

theorem weightedSumAt_cons (r : SourceContribution) (rest : List SourceContribution)
    (c : String) :
    weightedSumAt (r :: rest) c
      = (match alookup c r.2.1 with | some v => v * r.2.2 | none => 0)
        + weightedSumAt rest c := rfl

theorem totalWeightAt_cons (r : SourceContribution) (rest : List SourceContribution)
    (c : String) :
    totalWeightAt (r :: rest) c
      = (match alookup c r.2.1 with | some _ => r.2.2 | none => 0)
        + totalWeightAt rest c := rfl

/-- Claim C3: in quality-adjusted fusion the fused score of a category is the sum
of score × effective weight over the sources that have an entry for it,
divided by the sum of exactly those sources' effective weights; a category
present in a single source is scored purely from that source; and each
effective weight is the base reliability weight (text 1.0, voice 0.8,
face 0.7) plus a non-negative boost, capped at 1.0. -/
theorem claim_C3_quality_fusion :
    (∀ (vr : List SourceContribution) (c : String),
      fusedScoreAt vr c
        = if 0 < totalWeightAt vr c then weightedSumAt vr c / totalWeightAt vr c else 0)
    ∧ (∀ (pre post : List SourceContribution) (m : String) (cs : List (String × ℚ))
        (w : ℚ) (c : String) (v : ℚ), alookup c cs = some v →
        (∀ r ∈ pre, alookup c r.2.1 = none) → (∀ r ∈ post, alookup c r.2.1 = none) →
        0 < w → fusedScoreAt (pre ++ (m, cs, w) :: post) c = v)
    ∧ (∀ (m : String) (d : ModalityData), ∃ b, 0 ≤ b
        ∧ calculateModalityWeight m d = min (baseWeightOf m + b) 1)
    ∧ baseWeightOf "text" = 1 ∧ baseWeightOf "voice" = 8/10
    ∧ baseWeightOf "face" = 7/10 := by
  refine ⟨fusedScoreAt_eq, ?_, ?_, rfl, rfl, rfl⟩
  · intro pre post m cs w c v hcs hpre hpost hw
    rw [fusedScoreAt_eq, totalWeightAt_append, weightedSumAt_append,
      totalWeightAt_of_none pre c hpre, weightedSumAt_of_none pre c hpre,
      totalWeightAt_cons, weightedSumAt_cons,
      totalWeightAt_of_none post c hpost, weightedSumAt_of_none post c hpost]
    simp only [hcs]
    rw [if_pos (by linarith)]
    field_simp
  · intro m d
    refine ⟨(if m = "voice" ∧ 5/10 < d.stressLikelihood.getD 0 then (2:ℚ)/10 else 0)
      + (if m = "face" ∧ (d.ensembleInfo.elim false fun s => occursIn "ensemble" (lowerStr s))
          then (1:ℚ)/10 else 0)
      + (if 7/10 < (if d.categoryConfidence.getD 0 ≠ 0 then d.categoryConfidence.getD 0
          else d.confidence.getD 0) then (1:ℚ)/10 else 0), ?_, ?_⟩
    · split_ifs <;> norm_num
    · simp only [calculateModalityWeight]
      split_ifs <;> (congr 1; ring)

/-- Witness for C3: a category contributed by exactly one source (the text
source, weight 1) is scored purely from that source despite another
present source. -/
theorem claim_C3_quality_fusion_witness :
    fusedScoreAt [("face", [("calm", (1:ℚ)/4)], 7/10), ("text", [("anxious", 3/4)], 1)]
      "anxious" = 3/4 :=
  claim_C3_quality_fusion.2.1 [("face", [("calm", (1:ℚ)/4)], 7/10)] [] "text"
    [("anxious", 3/4)] 1 "anxious" (3/4) rfl
    (fun r hr => by rcases List.mem_singleton.mp hr with rfl; rfl)
    (fun r hr => absurd hr (List.not_mem_nil r)) one_pos

/-- Claim C9: increasing one source's score for a category, holding every other
score and every weight fixed, never decreases the fused score for that
category — in the simple weighted mode (`_combine_scores`) and in the
quality-adjusted mode (`weighted_fusion`). -/
theorem claim_C9_monotonicity :
    (∀ (i j f v i' j' f' v' : Emotion → ℚ) (e : Emotion),
      i e ≤ i' e → j e ≤ j' e → f e ≤ f' e → v e ≤ v' e →
      combineScores i j f v e ≤ combineScores i' j' f' v' e)
    ∧ (∀ (pre post : List SourceContribution) (m : String)
        (cs cs' : List (String × ℚ)) (w : ℚ) (c : String) (v v' : ℚ),
      alookup c cs = some v → alookup c cs' = some v' → v ≤ v' →
      (∀ d, d ≠ c → alookup d cs = alookup d cs') → 0 ≤ w →
      fusedScoreAt (pre ++ (m, cs, w) :: post) c
        ≤ fusedScoreAt (pre ++ (m, cs', w) :: post) c) := by
  constructor
  · intro i j f v i' j' f' v' e hi hj hf hv
    rw [combineScores, combineScores]
    have h1 := mul_le_mul_of_nonneg_right hi (by norm_num : (0:ℚ) ≤ 3/10)
    have h2 := mul_le_mul_of_nonneg_right hj (by norm_num : (0:ℚ) ≤ 4/10)
    have h3 := mul_le_mul_of_nonneg_right hf (by norm_num : (0:ℚ) ≤ 2/10)
    have h4 := mul_le_mul_of_nonneg_right hv (by norm_num : (0:ℚ) ≤ 1/10)
    linarith
  · intro pre post m cs cs' w c v v' hcs hcs' hv _ hw
    have hT : totalWeightAt (pre ++ (m, cs, w) :: post) c
        = totalWeightAt (pre ++ (m, cs', w) :: post) c := by
      rw [totalWeightAt_append, totalWeightAt_append, totalWeightAt_cons,
        totalWeightAt_cons]
      simp only [hcs, hcs']
    have hS : weightedSumAt (pre ++ (m, cs, w) :: post) c
        ≤ weightedSumAt (pre ++ (m, cs', w) :: post) c := by
      rw [weightedSumAt_append, weightedSumAt_append, weightedSumAt_cons,
        weightedSumAt_cons]
      simp only [hcs, hcs']
      exact add_le_add_left (add_le_add_right (mul_le_mul_of_nonneg_right hv hw) _) _
    rw [fusedScoreAt_eq, fusedScoreAt_eq, ← hT]
    split_ifs with hpos
    · exact div_le_div_of_nonneg_right hS (le_of_lt hpos)
    · exact le_refl 0

/-- Witness for C9: raising the single text source's "anxious" score from
1/4 to 1/2 does not decrease the fused "anxious" score, and likewise for
the simple weighted combination. -/
theorem claim_C9_monotonicity_witness :
    combineScores (fun _ => (1:ℚ)/4) (fun _ => 0) (fun _ => 0) (fun _ => 0) Emotion.anxious
      ≤ combineScores (fun _ => (1:ℚ)/2) (fun _ => 0) (fun _ => 0) (fun _ => 0) Emotion.anxious
    ∧ fusedScoreAt [("text", [("anxious", (1:ℚ)/4)], 1)] "anxious"
      ≤ fusedScoreAt [("text", [("anxious", (1:ℚ)/2)], 1)] "anxious" := by
  constructor
  · exact claim_C9_monotonicity.1 _ _ _ _ _ _ _ _ Emotion.anxious
      (by norm_num) (le_refl 0) (le_refl 0) (le_refl 0)
  · exact claim_C9_monotonicity.2 [] [] "text" [("anxious", (1:ℚ)/4)]
      [("anxious", (1:ℚ)/2)] 1 "anxious" (1/4) (1/2) rfl rfl (by norm_num)
      (fun d hd => by
        simp only [alookup]
        rw [if_neg (fun h => hd h.symm), if_neg (fun h => hd h.symm)])
      zero_le_one

/-- Claim C6: the simple weighted fusion of `_combine_scores` is the fixed-weight
sum 0.3·answers + 0.4·journaling + 0.2·face + 0.1·voice with no further
renormalisation; an absent source (the empty dict, i.e. the zero map under
`.get(e, 0)`) contributes 0 for every category while the other weights stay
as they are. -/
theorem claim_C6_simple_fusion :
    (∀ (i j f v : Emotion → ℚ) (e : Emotion),
      combineScores i j f v e
        = i e * (3/10) + j e * (4/10) + f e * (2/10) + v e * (1/10))
    ∧ (∀ (i j v : Emotion → ℚ) (e : Emotion),
      combineScores i j (fun _ => 0) v e = i e * (3/10) + j e * (4/10) + v e * (1/10))
    ∧ (∀ (i j f : Emotion → ℚ) (e : Emotion),
      combineScores i j f (fun _ => 0) e = i e * (3/10) + j e * (4/10) + f e * (2/10)) := by
  refine ⟨fun i j f v e => rfl, fun i j v e => ?_, fun i j f e => ?_⟩ <;>
    (rw [combineScores]; ring)

theorem foldl_step_shift (step : ℚ → (String × String) → ℚ)
    (hstep : ∀ (a b : ℚ) (p : String × String), step (a + b) p = a + step b p) :
    ∀ (l : List (String × String)) (a : ℚ), l.foldl step a = a + l.foldl step 0 := by
  intro l
  induction l with
  | nil => intro a; exact (add_zero a).symm
  | cons p t ih =>
    intro a
    rw [List.foldl_cons, List.foldl_cons, ih (step a p), ih (step 0 p),
      show step a p = a + step 0 p from by rw [← hstep a 0 p, add_zero]]
    ring

theorem scoreJournalingRaw_step_shift (e : Emotion) (a b : ℚ) (p : String × String) :
    (if p.2.toList.isEmpty || (pyStrip p.2).isEmpty then a + b
      else a + b + ((emotionKeywords e).countP fun kw => occursIn kw (lowerStr p.2) : ℕ))
    = a + (if p.2.toList.isEmpty || (pyStrip p.2).isEmpty then b
      else b + ((emotionKeywords e).countP fun kw => occursIn kw (lowerStr p.2) : ℕ)) := by
  split_ifs
  · rfl
  · ring

/-- Claim C7: the keyword scorer adds exactly 1 per configured keyword entry per
response when the keyword occurs as a case-insensitive substring —
regardless of how often it recurs inside that one response — responses
accumulate independently, and blank responses contribute nothing. -/
theorem claim_C7_keyword_scoring :
    (∀ (rs₁ rs₂ : List (String × String)) (e : Emotion),
      scoreJournalingRaw (rs₁ ++ rs₂) e
        = scoreJournalingRaw rs₁ e + scoreJournalingRaw rs₂ e)
    ∧ (∀ (n t : String) (e : Emotion),
      scoreJournalingRaw [(n, t)] e
        = if t.toList.isEmpty || (pyStrip t).isEmpty then 0
          else ((emotionKeywords e).countP fun kw => occursIn kw (lowerStr t) : ℕ))
    ∧ scoreJournalingRaw [("r1", "sad sad sad")] Emotion.sad = 1
    ∧ scoreJournalingRaw [("r1", "i feel sad"), ("r2", "still sad")] Emotion.sad = 2
    ∧ (∀ e : Emotion, scoreJournalingRaw [("r1", "   ")] e = 0) := by
  have hshift := fun e : Emotion => foldl_step_shift
    (fun acc p => if p.2.toList.isEmpty || (pyStrip p.2).isEmpty then acc
      else acc + ((emotionKeywords e).countP fun kw => occursIn kw (lowerStr p.2) : ℕ))
    (scoreJournalingRaw_step_shift e)
  refine ⟨?_, ?_, ?_, ?_, fun e => rfl⟩
  · intro rs₁ rs₂ e
    rw [scoreJournalingRaw, List.foldl_append, hshift e rs₂ _]
    rfl
  · intro n t e
    rw [scoreJournalingRaw, List.foldl_cons, List.foldl_nil]
    split_ifs
    · rfl
    · rw [zero_add]
  · have hc : ((emotionKeywords Emotion.sad).countP
        fun kw => occursIn kw (lowerStr "sad sad sad")) = 1 := by decide
    rw [scoreJournalingRaw, List.foldl_cons, List.foldl_nil,
      if_neg (by decide), hc, zero_add, Nat.cast_one]
  · have hc1 : ((emotionKeywords Emotion.sad).countP
        fun kw => occursIn kw (lowerStr "i feel sad")) = 1 := by decide
    have hc2 : ((emotionKeywords Emotion.sad).countP
        fun kw => occursIn kw (lowerStr "still sad")) = 1 := by decide
    rw [scoreJournalingRaw, List.foldl_cons, List.foldl_cons, List.foldl_nil,
      if_neg (by decide), if_neg (by decide), hc1, hc2, zero_add, Nat.cast_one]
    norm_num

/-- Claim C10: the configured `calm` keyword list contains "peaceful" twice, so a
single response containing "peaceful" adds 2.0 to calm's raw count, while
every other (category, keyword) pair is listed once and adds at most 1.0
per response. -/
theorem claim_C10_duplicate_peaceful :
    (emotionKeywords Emotion.calm).count "peaceful" = 2
    ∧ scoreJournalingRaw [("j1", "i feel peaceful")] Emotion.calm = 2
    ∧ (∀ (e : Emotion) (k : String), ¬(e = Emotion.calm ∧ k = "peaceful") →
        (emotionKeywords e).count k ≤ 1) := by
  refine ⟨by decide, ?_, ?_⟩
  · have hc : ((emotionKeywords Emotion.calm).countP
        fun kw => occursIn kw (lowerStr "i feel peaceful")) = 2 := by decide
    rw [scoreJournalingRaw, List.foldl_cons, List.foldl_nil,
      if_neg (by decide), hc, zero_add]
    norm_num
  · intro e k h
    cases e with
    | calm =>
      have hk : k ≠ "peaceful" := fun hk => h ⟨rfl, hk⟩
      calc (emotionKeywords Emotion.calm).count k
          = ((emotionKeywords Emotion.calm).erase "peaceful").count k :=
            (List.count_erase_of_ne hk _).symm
        _ ≤ 1 := List.nodup_iff_count_le_one.mp (by decide) k
    | anxious => exact List.nodup_iff_count_le_one.mp (by decide) k
    | sad => exact List.nodup_iff_count_le_one.mp (by decide) k
    | frustrated => exact List.nodup_iff_count_le_one.mp (by decide) k
    | overwhelmed => exact List.nodup_iff_count_le_one.mp (by decide) k
    | happy => exact List.nodup_iff_count_le_one.mp (by decide) k
    | neutral => exact List.nodup_iff_count_le_one.mp (by decide) k
    | tired => exact List.nodup_iff_count_le_one.mp (by decide) k

/-- Witness for C10 at the sad-category keyword "down". -/
theorem claim_C10_duplicate_peaceful_witness :
    ¬(Emotion.sad = Emotion.calm ∧ "down" = "peaceful")
    ∧ (emotionKeywords Emotion.sad).count "down" ≤ 1 :=
  ⟨by decide, claim_C10_duplicate_peaceful.2.2 Emotion.sad "down" (by decide)⟩

/-- Claim C4 counterexample: on the score map with the single nonzero entry
anxious = 0.2, the claim's margin rule ("margin taken as 0 when only one
category has a nonzero score") predicts confidence 0.14, but
`_calculate_confidence` computes margin = 0.2 − 0 = 0.2 (the second-highest
entry of the always-8-entry map is 0) and returns 0.21. -/
theorem claim_C4_counterexample :
    calculateConfidence cexMapC4 (maxVal cexMapC4) = 21/100
    ∧ confidenceClaimed cexMapC4 = 14/100
    ∧ confidenceClaimed cexMapC4 ≠ calculateConfidence cexMapC4 (maxVal cexMapC4) := by
  have hmap : emotionOrder.map cexMapC4 = [2/10, 0, 0, 0, 0, 0, 0, 0] := by
    simp [emotionOrder, cexMapC4]
  have hmax : maxVal cexMapC4 = 2/10 := by
    rw [maxVal, hmap]
    norm_num [pyMax, List.foldl, max_def]
  have hsec : secondMax cexMapC4 = 0 := by
    rw [secondMax, hmap, hmax, List.erase_cons_head]
    norm_num [pyMax, List.foldl, max_def]
  have hcode : calculateConfidence cexMapC4 (maxVal cexMapC4) = 21/100 := by
    rw [calculateConfidence_eq_amended, confidenceAmended, hmax, hsec]
    norm_num [boostedConf, strengthAdjust, min_def]
  have hcount : emotionOrder.countP (fun e => decide (cexMapC4 e ≠ 0)) = 1 := by
    norm_num [emotionOrder, cexMapC4, List.countP_cons, List.countP_nil]
    decide
  have hclaim : confidenceClaimed cexMapC4 = 14/100 := by
    rw [confidenceClaimed, hcount, hmax, if_pos (le_refl 1)]
    norm_num [boostedConf, strengthAdjust, min_def, max_def]
  refine ⟨hcode, hclaim, ?_⟩
  rw [hcode, hclaim]
  norm_num

/-- Claim C4 amended: the confidence estimator computes base = dominant score,
margin = dominant − second-highest of the (always 8-entry) score map —
also when only one category is nonzero, in which case the margin equals the
dominant score — then the tiered margin boost (> 0.3 → +0.35;
(0.15, 0.3] → +0.5·margin; ≤ 0.15 → +0.2·margin), then the mutually
exclusive strength adjustment (×0.7 below 0.3, +0.15 above 0.6), and
finally the upper clamp min(·, 1); the value is non-negative whenever the
scores are, so this agrees with clamping to [0, 1]. -/
theorem claim_C4_amended :
    (∀ f : Emotion → ℚ, calculateConfidence f (maxVal f) = confidenceAmended f)
    ∧ (∀ f : Emotion → ℚ, (∀ e, 0 ≤ f e) → 0 ≤ calculateConfidence f (maxVal f))
    ∧ (∀ (f : Emotion → ℚ) (s : ℚ), calculateConfidence f s ≤ 1) :=
  ⟨calculateConfidence_eq_amended, calculateConfidence_nonneg, calculateConfidence_le_one⟩

/-- Witness for C4 (amended) at the single-nonzero-entry map. -/
theorem claim_C4_amended_witness :
    calculateConfidence cexMapC4 (maxVal cexMapC4) = confidenceAmended cexMapC4
    ∧ 0 ≤ calculateConfidence cexMapC4 (maxVal cexMapC4) :=
  ⟨claim_C4_amended.1 cexMapC4,
   claim_C4_amended.2.1 cexMapC4
     (fun e => by cases e <;> (rw [cexMapC4]; split_ifs <;> norm_num))⟩
